import Mathlib

/-!
Shallow embedding of the bi-chatbot analytics core.

Sources embedded here:
* the Prisma data model (`model Ticket`, `model Dataset`);
* the analytics query functions of the Prisma-backed analytics module
  (`getResolutionTimeAnalytics`, `getSatisfactionAnalytics`,
  `getIssueDistributionAnalytics`, `getTicketTrendsAnalytics`);
* the keyword intent router `detectIntent` of the preview actions module;
* the upload endpoint `POST` of `src/app/api/datasets/upload/route.ts`
  together with its `parseDate` helper and the `createMany`/`skipDuplicates`
  bulk insert against the `(ticketId, datasetId)` unique constraint.

Modelling conventions:
* JS numbers are modelled by `JsNum`: either an exact rational or one of the
  non-finite values `nan`, `posInf`, `negInf`; division and multiplication
  follow IEEE-754 special-value rules (exact rational arithmetic stands in
  for finite float arithmetic, matching the spec's "within floating-point
  tolerance" reading).
* the database is modelled extensionally: the set of tickets of a dataset is
  a `List Ticket`; a grouped aggregate query (`groupBy` + `_count`) is the
  list of distinct key values in first-occurrence order, each paired with
  its multiplicity; `orderBy: date asc` is a stable ascending sort by date.
* JS `Date` objects are modelled by `JsDate` (calendar fields, UTC);
  `getDay()` is Zeller's congruence.
-/

/-- Model of a JS number: an exact rational, or one of the IEEE special
values produced by unguarded division (`NaN`, `Infinity`, `-Infinity`). -/
inductive JsNum where
  | fin (q : ℚ)
  | nan
  | posInf
  | negInf
deriving DecidableEq

/-- JS division `a / b` of two finite numbers: division by zero yields
`NaN` when the numerator is zero, otherwise a signed infinity. -/
def jsDiv (a b : ℚ) : JsNum :=
  if b = 0 then
    if a = 0 then JsNum.nan else if 0 < a then JsNum.posInf else JsNum.negInf
  else JsNum.fin (a / b)

/-- JS multiplication of a (possibly non-finite) number by a finite
constant, as in `(x / y) * 100`. -/
def JsNum.mulFin : JsNum → ℚ → JsNum
  | JsNum.fin q, c => JsNum.fin (q * c)
  | JsNum.nan, _ => JsNum.nan
  | JsNum.posInf, c => if c = 0 then JsNum.nan else if 0 < c then JsNum.posInf else JsNum.negInf
  | JsNum.negInf, c => if c = 0 then JsNum.nan else if 0 < c then JsNum.negInf else JsNum.posInf

/-- Whether a JS number is a finite value. -/
def JsNum.isFinite : JsNum → Bool
  | JsNum.fin _ => true
  | _ => false

/-- JS `Math.max(...xs)`: `-Infinity` on an empty argument list. -/
def jsMaxNat : List ℕ → JsNum
  | [] => JsNum.negInf
  | x :: xs => JsNum.fin (xs.foldl max x : ℕ)

/-- Model of a JS `Date` (UTC calendar fields, as produced by parsing
`YYYY-MM-DD` strings during ingestion). -/
structure JsDate where
  year : ℕ
  month : ℕ
  day : ℕ
deriving DecidableEq

/-- Left-pad the decimal representation of `n` with zeros to width `w`. -/
def padNat (w n : ℕ) : String :=
  let s := toString n
  String.mk (List.replicate (w - s.length) '0') ++ s

/-- The `YYYY-MM-DD` date string, as in `date.toISOString().split('T')[0]`
and `date.toISOString().slice(0, 10)`. -/
def isoDate (d : JsDate) : String :=
  padNat 4 d.year ++ "-" ++ padNat 2 d.month ++ "-" ++ padNat 2 d.day

/-- The `YYYY-MM` month string, as in `date.toISOString().slice(0, 7)`. -/
def isoMonth (d : JsDate) : String :=
  padNat 4 d.year ++ "-" ++ padNat 2 d.month

/-- JS `date.getDay()` (0 = Sunday), by Zeller's congruence. -/
def dayOfWeek (d : JsDate) : ℕ :=
  let m := if d.month ≤ 2 then d.month + 12 else d.month
  let y := if d.month ≤ 2 then d.year - 1 else d.year
  let k := y % 100
  let j := y / 100
  let h := (d.day + (13 * (m + 1)) / 5 + k + k / 4 + j / 4 + 5 * j) % 7
  (h + 6) % 7

/-- A row of the `tickets` table (Prisma `model Ticket`); the surrogate
`id`, `createdAt` and `updatedAt` columns play no role in the embedded
logic and are omitted. -/
structure Ticket where
  ticketId : String
  date : JsDate
  employeeId : String
  agentId : String
  requestCategory : String
  issueType : String
  severity : String
  priority : String
  resolutionTime : ℚ
  satisfactionRate : ℤ
  datasetId : String
deriving DecidableEq

/-- A row of the `datasets` table (Prisma `model Dataset`). -/
structure DatasetRow where
  id : String
  name : String
  description : String
deriving DecidableEq

/-- Prisma `aggregate { _avg }` over a column: `null` (here `none`) on an
empty row set, otherwise the arithmetic mean. -/
def aggAvg (xs : List ℚ) : Option ℚ :=
  if xs.isEmpty then none else some (xs.sum / (xs.length : ℚ))

/-- Prisma `aggregate { _min }` over a column. -/
def aggMin : List ℚ → Option ℚ
  | [] => none
  | x :: xs => some (xs.foldl min x)

/-- Prisma `aggregate { _max }` over a column. -/
def aggMax : List ℚ → Option ℚ
  | [] => none
  | x :: xs => some (xs.foldl max x)

/-- Prisma `groupBy` with `_count`: the distinct values of `f` over the
rows in first-occurrence order, each with its number of occurrences. -/
def groupByCounts {α : Type} [DecidableEq α] (f : Ticket → α) (ts : List Ticket) :
    List (α × ℕ) :=
  ((ts.map f).dedup).map fun v => (v, (ts.map f).count v)

/-- Ascending-by-date comparison used to model `orderBy: { date: 'asc' }`. -/
def dateLE (a b : JsDate) : Bool :=
  decide (a.year < b.year) ||
    (decide (a.year = b.year) &&
      (decide (a.month < b.month) ||
        (decide (a.month = b.month) && decide (a.day ≤ b.day))))

/-- The ticket list as returned by a `findMany` with
`orderBy: { date: 'asc' }`: a stable ascending sort by date. -/
def sortByDate (ts : List Ticket) : List Ticket :=
  List.insertionSort (fun a b => dateLE a.date b.date = true) ts

/-- Result object of `getResolutionTimeAnalytics`. -/
structure ResolutionTimeAnalytics where
  avgResolutionTime : ℚ
  fastestResolution : ℚ
  slowestResolution : ℚ
  percentageUnderDay : JsNum
  data : List (String × ℚ)
deriving DecidableEq

/-- `getResolutionTimeAnalytics` from the analytics module: aggregate
avg/min/max of `resolutionTime` (with `|| 0` fallbacks), the per-calendar-day
average series over the date-ordered tickets, and the unguarded percentage
of tickets with `resolutionTime < 1`. -/
def getResolutionTimeAnalytics (ts : List Ticket) : ResolutionTimeAnalytics :=
  let tickets := sortByDate ts
  let dates := (tickets.map fun t => isoDate t.date).dedup
  let dailyAverage := dates.map fun d =>
    let times := (tickets.filter fun t => isoDate t.date == d).map (·.resolutionTime)
    (d, times.sum / (times.length : ℚ))
  let underDayCount := tickets.countP fun t => decide (t.resolutionTime < 1)
  let percentageUnderDay := (jsDiv (underDayCount : ℚ) (tickets.length : ℚ)).mulFin 100
  { avgResolutionTime := (aggAvg (ts.map (·.resolutionTime))).getD 0
    fastestResolution := (aggMin (ts.map (·.resolutionTime))).getD 0
    slowestResolution := (aggMax (ts.map (·.resolutionTime))).getD 0
    percentageUnderDay := percentageUnderDay
    data := dailyAverage }

/-- Result object of `getSatisfactionAnalytics`; `data` repeats the
rating distribution, as in the source's `formattedData`. -/
structure SatisfactionAnalytics where
  avgRating : ℚ
  percentageHigh : JsNum
  percentageLow : JsNum
  ratingDistribution : List (ℤ × ℕ)
  data : List (ℤ × ℕ)
deriving DecidableEq

/-- `getSatisfactionAnalytics` from the analytics module: aggregate average
rating (`|| 0`), the rating→count distribution from a `groupBy` on
`satisfactionRate`, and the unguarded percentages of ratings `≥ 4` and
`≤ 2` over the distribution's total. -/
def getSatisfactionAnalytics (ts : List Ticket) : SatisfactionAnalytics :=
  let distribution := groupByCounts (·.satisfactionRate) ts
  let totalTickets := (distribution.map Prod.snd).sum
  let highRatings := ((distribution.filter fun item => decide (4 ≤ item.1)).map Prod.snd).sum
  let lowRatings := ((distribution.filter fun item => decide (item.1 ≤ 2)).map Prod.snd).sum
  let percentageHigh := (jsDiv (highRatings : ℚ) (totalTickets : ℚ)).mulFin 100
  let percentageLow := (jsDiv (lowRatings : ℚ) (totalTickets : ℚ)).mulFin 100
  { avgRating := (aggAvg (ts.map fun t => (t.satisfactionRate : ℚ))).getD 0
    percentageHigh := percentageHigh
    percentageLow := percentageLow
    ratingDistribution := distribution
    data := distribution }

/-- Stable descending-by-count insertion used to model the JS stable
`sort((a, b) => b.count - a.count)`. -/
def insertDescByCount {α : Type} (count : α → ℕ) (x : α) : List α → List α
  | [] => [x]
  | y :: ys => if count y < count x then x :: y :: ys else y :: insertDescByCount count x ys

/-- Stable descending sort by count (JS `Array.prototype.sort` is stable). -/
def sortDescByCount {α : Type} (count : α → ℕ) : List α → List α
  | [] => []
  | x :: xs => insertDescByCount count x (sortDescByCount count xs)

/-- Result object of `getIssueDistributionAnalytics`; `data` repeats
`issueDistribution`, as in the source. -/
structure IssueDistributionAnalytics where
  issueDistribution : List (String × ℕ)
  topIssue : String × ℕ
  categories : List (String × ℕ)
  data : List (String × ℕ)
deriving DecidableEq

/-- `getIssueDistributionAnalytics` from the analytics module: `groupBy`
counts on `issueType` and on `requestCategory`, the highest-count issue
type (`('None', 0)` when there are no rows), and the categories sorted by
descending count. -/
def getIssueDistributionAnalytics (ts : List Ticket) : IssueDistributionAnalytics :=
  let issueDistribution := groupByCounts (·.issueType) ts
  let categoryDistribution := groupByCounts (·.requestCategory) ts
  let sortedIssues := sortDescByCount Prod.snd issueDistribution
  let topIssue := match sortedIssues with
    | [] => ("None", 0)
    | top :: _ => top
  let sortedCategories := sortDescByCount Prod.snd categoryDistribution
  { issueDistribution := issueDistribution
    topIssue := topIssue
    categories := sortedCategories
    data := issueDistribution }

/-- JS `Math.ceil((date.getDate() + 6 - date.getDay()) / 7)`, the
within-month week number used by the trends grouping. -/
def weekNum (d : JsDate) : ℕ :=
  (d.day + 6 - dayOfWeek d + 6) / 7

/-- The period key of a ticket date for the requested `groupBy`
granularity (`month`, `week`, `day`; anything else defaults to month). -/
def periodKey (groupBy : String) (d : JsDate) : String :=
  if groupBy = "month" then isoMonth d
  else if groupBy = "week" then isoMonth d ++ "-W" ++ toString (weekNum d)
  else if groupBy = "day" then isoDate d
  else isoMonth d

/-- Decimal rendering of a JS number for template strings; non-finite
values print as JS prints them. Finite values in the embedded insight
strings are integers or one-decimal roundings, rendered exactly. -/
def jsNumToString : JsNum → String
  | JsNum.fin q => if q.den = 1 then toString q.num else toString q
  | JsNum.nan => "NaN"
  | JsNum.posInf => "Infinity"
  | JsNum.negInf => "-Infinity"

/-- JS `x.toFixed(1)` on the embedded numbers: round half away from zero
to one decimal place; non-finite values render as JS renders them. -/
def jsToFixed1 : JsNum → String
  | JsNum.fin q =>
      let scaled : ℤ := if 0 ≤ q then ⌊q * 10 + 1 / 2⌋ else -⌊(-q) * 10 + 1 / 2⌋
      let sign := if scaled < 0 then "-" else ""
      sign ++ toString (scaled.natAbs / 10) ++ "." ++ toString (scaled.natAbs % 10)
  | JsNum.nan => "NaN"
  | JsNum.posInf => "Infinity"
  | JsNum.negInf => "-Infinity"

/-- Stable ascending-by-period insertion modelling the JS stable
`sort((a, b) => a.period.localeCompare(b.period))` on ASCII period keys. -/
def insertAscByKey {α : Type} (key : α → String) (x : α) : List α → List α
  | [] => [x]
  | y :: ys =>
      if (compare (key x) (key y)).isLE then x :: y :: ys else y :: insertAscByKey key x ys

/-- Stable ascending sort by string key. -/
def sortAscByKey {α : Type} (key : α → String) : List α → List α
  | [] => []
  | x :: xs => insertAscByKey key x (sortAscByKey key xs)

/-- Result object of `getTicketTrendsAnalytics`. -/
structure TicketTrendsAnalytics where
  data : List (String × ℕ)
  totalTickets : ℕ
  avgTicketsPerPeriod : JsNum
  maxTicketsInPeriod : JsNum
  insights : List String
deriving DecidableEq

/-- `getTicketTrendsAnalytics` from the analytics module: tickets bucketed
by period key over the date-ordered rows, with total count, unguarded
average per period, `Math.max` of the bucket counts, and the templated
insight strings. -/
def getTicketTrendsAnalytics (ts : List Ticket) (groupBy : String) : TicketTrendsAnalytics :=
  let tickets := sortByDate ts
  let keys := (tickets.map fun t => periodKey groupBy t.date).dedup
  let byPeriod := keys.map fun k =>
    (k, tickets.countP fun t => periodKey groupBy t.date == k)
  let data := sortAscByKey Prod.fst byPeriod
  let totalTickets := tickets.length
  let avgTicketsPerPeriod := jsDiv (totalTickets : ℚ) (keys.length : ℚ)
  let maxTicketsInPeriod := jsMaxNat (byPeriod.map Prod.snd)
  { data := data
    totalTickets := totalTickets
    avgTicketsPerPeriod := avgTicketsPerPeriod
    maxTicketsInPeriod := maxTicketsInPeriod
    insights :=
      [ "Average of " ++ jsToFixed1 avgTicketsPerPeriod ++ " tickets per " ++ groupBy
      , "Peak volume of " ++ jsNumToString maxTicketsInPeriod ++ " tickets in a single " ++ groupBy
      , "Total of " ++ toString totalTickets ++ " tickets analyzed" ] }

/-!
Intent router (`detectIntent` of the preview actions module) and its
string primitives.
-/

/-- Whether `needle` occurs at the front of `haystack`. -/
def substrAtFront : List Char → List Char → Bool
  | [], _ => true
  | _ :: _, [] => false
  | a :: as, b :: bs => a == b && substrAtFront as bs

/-- Whether `needle` occurs contiguously anywhere in `haystack`. -/
def substrIn (needle : List Char) : List Char → Bool
  | [] => substrAtFront needle []
  | b :: bs => substrAtFront needle (b :: bs) || substrIn needle bs

/-- JS `s.includes(sub)`: contiguous-substring containment. -/
def includes (s sub : String) : Bool :=
  substrIn sub.data s.data

/-- JS `s.toLowerCase()` on the ASCII keyword vocabulary. -/
def jsToLower (s : String) : String :=
  String.mk (s.data.map Char.toLower)

/-- The intent enumeration produced by `detectIntent`; metric names are the
`ANALYTICS_METRICS` string constants of the source. -/
inductive Intent where
  | generateReport (metrics : List String) (reportType : String)
  | uploadDataset
  | listDatasets
  | showAnalytics (metric : String)
  | analyzeData (query : String)
deriving DecidableEq

/-- `detectIntent` from the preview actions module: ordered substring
matching on the lowercased message, first matching rule wins; unmatched
messages fall through to `analyze_data` carrying the raw message. -/
def detectIntent (message : String) : Intent :=
  let lm := jsToLower message
  if (includes lm "generate" || includes lm "create") &&
      (includes lm "report" || includes lm "summary") then
    Intent.generateReport
      ["resolution_time", "satisfaction", "issue_distribution", "ticket_trends"]
      (if includes lm "monthly" then "Monthly" else "General")
  else if includes lm "upload" then
    Intent.uploadDataset
  else if includes lm "list" && includes lm "dataset" then
    Intent.listDatasets
  else if includes lm "resolution time" || includes lm "agent performance" ||
      (includes lm "time" && includes lm "resolve") then
    Intent.showAnalytics "agent_performance"
  else if (includes lm "tickets" || includes lm "ticket") &&
      (includes lm "over time" || includes lm "trend" || includes lm "volume" ||
        includes lm "monthly" || includes lm "created") then
    Intent.showAnalytics "ticket_trends"
  else if includes lm "satisfaction" || includes lm "rating" ||
      includes lm "csat" || includes lm "happy" then
    Intent.showAnalytics "satisfaction"
  else if (includes lm "break down" || includes lm "breakdown" ||
      includes lm "distribution") &&
      (includes lm "issue" || includes lm "type" || includes lm "category") then
    Intent.showAnalytics "issue_distribution"
  else
    Intent.analyzeData message

/-!
Upload endpoint: `parseDate`, the row mapping, and the `POST` handler of
`src/app/api/datasets/upload/route.ts`. The file-parsing boundary
(papaparse / XLSX) is external: the handler is embedded from the point
where `rawData` is in hand. CSV cells already read as numbers
(`parseFloat` / `parseInt`, JS builtins that never throw) are modelled as
the parsed numeric values on the row.
-/

/-- A parsed spreadsheet row. A missing or empty `ID Ticket` cell is a
`none` / `""` value, which is falsy in the source's truthiness filter. -/
structure Row where
  ticketId : Option String
  date : String
  employeeId : String
  agentId : String
  requestCategory : String
  issueType : String
  severity : String
  priority : String
  resolutionTime : ℚ
  satisfactionRate : ℤ
deriving DecidableEq

/-- JS truthiness of `row['ID Ticket']`: present and not the empty string. -/
def jsTruthyStr : Option String → Bool
  | none => false
  | some s => !(s == "")

/-- Split a character list at every occurrence of the separator `c`
(the separator-field structure a regex with `/`- or `-`-separated groups
inspects). -/
def splitOnChar (c : Char) : List Char → List (List Char)
  | [] => [[]]
  | x :: xs =>
    match splitOnChar c xs, x == c with
    | rest, true => [] :: rest
    | [], false => [[x]]
    | y :: ys, false => (x :: y) :: ys

/-- Whether a group is one or more decimal digits. -/
def isDigits (l : List Char) : Bool :=
  !l.isEmpty && l.all (·.isDigit)

/-- The numeric value of a decimal digit group. -/
def digitsVal (l : List Char) : ℕ :=
  l.foldl (fun acc c => acc * 10 + (c.toNat - 48)) 0

/-- Parse a 1-to-2-digit group, as matched by `\d{1,2}`. -/
def digits12? (l : List Char) : Option ℕ :=
  if (l.length = 1 ∨ l.length = 2) ∧ isDigits l = true then some (digitsVal l) else none

/-- Parse a 4-digit group, as matched by `\d{4}`. -/
def digits4? (l : List Char) : Option ℕ :=
  if l.length = 4 ∧ isDigits l = true then some (digitsVal l) else none

/-- The anchored `^(\d{1,2})\/(\d{1,2})\/(\d{4})$` match of `parseDate`,
returning day, month, year on success. -/
def matchDMY (s : String) : Option (ℕ × ℕ × ℕ) :=
  match splitOnChar '/' s.data with
  | [d, m, y] =>
    match digits12? d, digits12? m, digits4? y with
    | some dv, some mv, some yv => some (dv, mv, yv)
    | _, _, _ => none
  | _ => none

/-- Number of days in a month (for the generic ISO date validity check). -/
def daysInMonth (y m : ℕ) : ℕ :=
  if m = 2 then
    if y % 4 = 0 ∧ (y % 100 ≠ 0 ∨ y % 400 = 0) then 29 else 28
  else if m = 4 ∨ m = 6 ∨ m = 9 ∨ m = 11 then 30
  else 31

/-- Model of generic JS date parsing (`new Date(dateStr)` on a string not
in D/M/YYYY form): accepts a calendar-valid `YYYY-MM-DD` string, rejects
everything else as an Invalid Date. -/
def jsGenericParseDate (s : String) : Option JsDate :=
  match splitOnChar '-' s.data with
  | [y, m, d] =>
    match digits4? y, isDigits m, isDigits d with
    | some yv, true, true =>
      if m.length = 2 ∧ d.length = 2 ∧ 1 ≤ digitsVal m ∧ digitsVal m ≤ 12 ∧
          1 ≤ digitsVal d ∧ digitsVal d ≤ daysInMonth yv (digitsVal m) then
        some ⟨yv, digitsVal m, digitsVal d⟩
      else none
    | _, _, _ => none
  | _ => none

/-- `parseDate` from the upload route: an anchored D/M/YYYY match is
rebuilt as a `YYYY-MM-DD` date and returned without a validity check;
otherwise generic parsing is tried, and an invalid result throws
`Invalid date format: ...`. -/
def parseDate (s : String) : Except String JsDate :=
  match matchDMY s with
  | some (d, m, y) => Except.ok ⟨y, m, d⟩
  | none =>
    match jsGenericParseDate s with
    | some dt => Except.ok dt
    | none => Except.error ("Invalid date format: " ++ s)

/-- The per-row mapping of the upload route: only `parseDate` can throw;
its error is rethrown as a `Failed to process row ...` message. -/
def mapRow (datasetId : String) (r : Row) : Except String Ticket :=
  match parseDate r.date with
  | Except.ok d =>
    Except.ok
      { ticketId := r.ticketId.getD ""
        date := d
        employeeId := r.employeeId
        agentId := r.agentId
        requestCategory := r.requestCategory
        issueType := r.issueType
        severity := r.severity
        priority := r.priority
        resolutionTime := r.resolutionTime
        satisfactionRate := r.satisfactionRate
        datasetId := datasetId }
  | Except.error e =>
    Except.error
      ("Failed to process row with ticket ID " ++ r.ticketId.getD "" ++ ": " ++ e)

/-- The row mapping over the filtered rows: JS `Array.prototype.map` with a
throwing callback maps rows left to right and the first throw aborts the
whole mapping. -/
def mapRows (datasetId : String) : List Row → Except String (List Ticket)
  | [] => Except.ok []
  | r :: rs =>
    match mapRow datasetId r with
    | Except.error e => Except.error e
    | Except.ok t =>
      match mapRows datasetId rs with
      | Except.error e => Except.error e
      | Except.ok ts => Except.ok (t :: ts)

/-- The natural key enforced by the schema's
`@@unique([ticketId, datasetId])`. -/
def ticketKey (t : Ticket) : String × String :=
  (t.ticketId, t.datasetId)

/-- One insert of `createMany` with `skipDuplicates: true`: a row whose
`(ticketId, datasetId)` key is already present (in the table or earlier in
the same batch) is skipped. -/
def insertSkipDup (acc : List Ticket) (t : Ticket) : List Ticket :=
  if ∃ u ∈ acc, ticketKey u = ticketKey t then acc else acc ++ [t]

/-- `db.ticket.createMany({ data, skipDuplicates: true })` against an
existing table state. -/
def createMany (existing rows : List Ticket) : List Ticket :=
  rows.foldl insertSkipDup existing

/-- The database state touched by the upload flow. -/
structure DbState where
  datasets : List DatasetRow
  tickets : List Ticket
deriving DecidableEq

/-- The upload endpoint's JSON outcome: success with the created dataset
id and the reported `ticketCount`, or the catch-all error message. -/
inductive UploadResult where
  | ok (datasetId : String) (ticketCount : ℕ)
  | error (message : String)
deriving DecidableEq

/-- The `POST` handler of the upload route from the point where `rawData`
is parsed: create the `Dataset` row first (its generated cuid is the
`newId` argument), truthiness-filter rows on `ID Ticket`, map rows (a bad
date throws out of the whole mapping), reject an empty result, then
bulk-insert with duplicate skipping; any throw is caught and returned as
an error response after the dataset row was already persisted. -/
def uploadPOST (st : DbState) (newId name fileName : String) (rawData : List Row) :
    DbState × UploadResult :=
  let dataset : DatasetRow :=
    { id := newId
      name := if name == "" then fileName else name
      description := "Uploaded file: " ++ fileName }
  let st1 : DbState := { st with datasets := st.datasets ++ [dataset] }
  match mapRows newId (rawData.filter fun r => jsTruthyStr r.ticketId) with
  | Except.error e => (st1, UploadResult.error e)
  | Except.ok tickets =>
    if tickets.length = 0 then
      (st1, UploadResult.error "No valid tickets found in the file")
    else
      ({ st1 with tickets := createMany st1.tickets tickets },
        UploadResult.ok newId tickets.length)

/-!
Shared sample data used by the concrete witnesses.
-/

/-- A sample ticket of dataset `ds1` with the given id, resolution time
and satisfaction rating. -/
def mkTicket (tid : String) (rt : ℚ) (sat : ℤ) : Ticket :=
  { ticketId := tid
    date := ⟨2024, 1, 5⟩
    employeeId := "E1"
    agentId := "A1"
    requestCategory := "General"
    issueType := "Bug"
    severity := "High"
    priority := "P1"
    resolutionTime := rt
    satisfactionRate := sat
    datasetId := "ds1" }

/-- The 3-row sample of the spec's end-to-end scenario: resolution times
0.5, 1.0 and 2.0 days, ratings 5, 3 and 1. -/
def threeTickets : List Ticket :=
  [mkTicket "T1" (1 / 2) 5, mkTicket "T2" 1 3, mkTicket "T3" 2 1]

/-!
Grouping and counting lemmas shared by the analytics theorems.
-/

/-- The per-group counts of a grouped aggregate sum to the number of rows. -/
theorem groupByCounts_snd_sum {α : Type} [DecidableEq α] (f : Ticket → α) (ts : List Ticket) :
    ((groupByCounts f ts).map Prod.snd).sum = ts.length := by
  unfold groupByCounts
  rw [List.map_map]
  have h := List.sum_map_count_dedup_eq_length (ts.map f)
  simpa using h

/-- Summing the counts of the groups whose key satisfies `p` counts the
rows whose key satisfies `p`. -/
theorem groupByCounts_filter_snd_sum {α : Type} [DecidableEq α] (f : Ticket → α)
    (p : α → Bool) (ts : List Ticket) :
    (((groupByCounts f ts).filter fun x => p x.1).map Prod.snd).sum
      = ts.countP fun t => p (f t) := by
  unfold groupByCounts
  rw [List.filter_map, List.map_map]
  have h := List.sum_map_count_dedup_filter_eq_countP p (ts.map f)
  rw [List.countP_map] at h
  simpa [Function.comp] using h

/-- Two mutually exclusive predicates count at most the whole list. -/
theorem countP_disjoint_le {α : Type} (p q : α → Bool)
    (hpq : ∀ a, ¬(p a = true ∧ q a = true)) (l : List α) :
    l.countP p + l.countP q ≤ l.length := by
  induction l with
  | nil => simp
  | cons a l ih =>
    rw [List.countP_cons, List.countP_cons, List.length_cons]
    have ha := hpq a
    cases hp : p a <;> cases hq : q a <;> simp_all <;> omega

/-- A stable insertion sort is a permutation, so lengths agree. -/
theorem sortByDate_length (ts : List Ticket) : (sortByDate ts).length = ts.length :=
  (List.perm_insertionSort _ ts).length_eq

/-- A stable insertion sort is a permutation, so `countP` agrees. -/
theorem sortByDate_countP (p : Ticket → Bool) (ts : List Ticket) :
    (sortByDate ts).countP p = ts.countP p :=
  (List.perm_insertionSort _ ts).countP_eq p

/-- Claim C1: for every dataset, the per-issue-type counts in the
`issueDistribution` array of issue-distribution analytics sum to the total
number of tickets of that dataset. -/
theorem issueDistribution_counts_sum_eq_total (ts : List Ticket) :
    (((getIssueDistributionAnalytics ts).issueDistribution).map Prod.snd).sum = ts.length := by
  have h := groupByCounts_snd_sum (fun t => t.issueType) ts
  simpa [getIssueDistributionAnalytics] using h

/-- Claim C2: for every dataset with at least one ticket, the
`avgResolutionTime` field of resolution-time analytics is the arithmetic
mean of `resolutionTime` over the dataset's tickets. -/
theorem avgResolutionTime_eq_mean (ts : List Ticket) (h : ts ≠ []) :
    (getResolutionTimeAnalytics ts).avgResolutionTime
      = (ts.map (·.resolutionTime)).sum / (ts.length : ℚ) := by
  have hne : (ts.map (·.resolutionTime)).isEmpty = false := by
    simp [List.isEmpty_iff, h]
  simp [getResolutionTimeAnalytics, aggAvg, hne]

/-- Witness for C2 on the 3-ticket sample: the mean of 0.5, 1 and 2 days
is 7/6 (= 1.1666...). -/
theorem avgResolutionTime_eq_mean_witness :
    threeTickets ≠ [] ∧ (getResolutionTimeAnalytics threeTickets).avgResolutionTime = 7 / 6 :=
  ⟨by simp [threeTickets], by
    rw [avgResolutionTime_eq_mean threeTickets (by simp [threeTickets])]
    norm_num [threeTickets, mkTicket]⟩

/-- Claim C7: for every dataset with at least one ticket,
`percentageUnderDay` is 100 times the number of tickets resolved in
strictly less than one day, divided by the total number of tickets (a
ticket resolved in exactly 1.0 day is not counted). -/
theorem percentageUnderDay_formula (ts : List Ticket) (h : ts ≠ []) :
    (getResolutionTimeAnalytics ts).percentageUnderDay
      = JsNum.fin (((ts.countP fun t => decide (t.resolutionTime < 1)) : ℚ)
          / (ts.length : ℚ) * 100) := by
  have hc := sortByDate_countP (fun t => decide (t.resolutionTime < 1)) ts
  have hl := sortByDate_length ts
  have hpos : (ts.length : ℚ) ≠ 0 := by
    have hlen : ts.length ≠ 0 := by simpa using h
    exact_mod_cast hlen
  simp only [getResolutionTimeAnalytics, hc, hl, jsDiv, hpos, if_false, reduceIte,
    JsNum.mulFin]

/-- Witness for C7 on the 3-ticket sample (resolution times 0.5, 1.0,
2.0): only the 0.5-day ticket counts, so the percentage is 100/3 = 33.3%,
and the average is 7/6 days. -/
theorem percentageUnderDay_formula_witness :
    threeTickets ≠ [] ∧
    (getResolutionTimeAnalytics threeTickets).percentageUnderDay = JsNum.fin (100 / 3) ∧
    (getResolutionTimeAnalytics threeTickets).avgResolutionTime = 7 / 6 := by
  refine ⟨by simp [threeTickets], ?_, ?_⟩
  · rw [percentageUnderDay_formula threeTickets (by simp [threeTickets])]
    norm_num [threeTickets, mkTicket, List.countP_cons]
  · simp only [getResolutionTimeAnalytics, aggAvg, threeTickets, mkTicket]
    norm_num

/-- Definitional unfolding of the `percentageHigh` field of satisfaction
analytics. -/
theorem getSatisfactionAnalytics_percentageHigh (ts : List Ticket) :
    (getSatisfactionAnalytics ts).percentageHigh =
      (jsDiv (((((groupByCounts (fun t => t.satisfactionRate) ts).filter
            fun item => decide (4 ≤ item.1)).map Prod.snd).sum : ℚ))
        ((((groupByCounts (fun t => t.satisfactionRate) ts).map Prod.snd).sum : ℚ))).mulFin
        100 :=
  rfl

/-- Definitional unfolding of the `percentageLow` field of satisfaction
analytics. -/
theorem getSatisfactionAnalytics_percentageLow (ts : List Ticket) :
    (getSatisfactionAnalytics ts).percentageLow =
      (jsDiv (((((groupByCounts (fun t => t.satisfactionRate) ts).filter
            fun item => decide (item.1 ≤ 2)).map Prod.snd).sum : ℚ))
        ((((groupByCounts (fun t => t.satisfactionRate) ts).map Prod.snd).sum : ℚ))).mulFin
        100 :=
  rfl

/-- Claim C3: for every dataset with at least one ticket, satisfaction
analytics yields finite `percentageHigh` and `percentageLow` with
`percentageHigh` counting exactly the tickets rated `≥ 4`, `percentageLow`
exactly those rated `≤ 2` (a rating of 3 lands in neither bucket), and
their sum is at most 100. -/
theorem satisfaction_percentages_sum_le_100 (ts : List Ticket) (h : ts ≠ []) :
    ∃ qh ql : ℚ,
      (getSatisfactionAnalytics ts).percentageHigh = JsNum.fin qh ∧
      (getSatisfactionAnalytics ts).percentageLow = JsNum.fin ql ∧
      qh = ((ts.countP fun t => decide (4 ≤ t.satisfactionRate)) : ℚ)
          / (ts.length : ℚ) * 100 ∧
      ql = ((ts.countP fun t => decide (t.satisfactionRate ≤ 2)) : ℚ)
          / (ts.length : ℚ) * 100 ∧
      qh + ql ≤ 100 := by
  have htot : ((groupByCounts (fun t => t.satisfactionRate) ts).map Prod.snd).sum
      = ts.length := groupByCounts_snd_sum _ ts
  have hhigh := groupByCounts_filter_snd_sum (fun t => t.satisfactionRate)
    (fun r => decide (4 ≤ r)) ts
  have hlow := groupByCounts_filter_snd_sum (fun t => t.satisfactionRate)
    (fun r => decide (r ≤ 2)) ts
  have hpos : (0 : ℚ) < (ts.length : ℚ) := by
    have hl : 0 < ts.length := List.length_pos.mpr h
    exact_mod_cast hl
  have hne : ((ts.length : ℚ)) ≠ 0 := ne_of_gt hpos
  refine ⟨((ts.countP fun t => decide (4 ≤ t.satisfactionRate)) : ℚ)
      / (ts.length : ℚ) * 100,
    ((ts.countP fun t => decide (t.satisfactionRate ≤ 2)) : ℚ)
      / (ts.length : ℚ) * 100, ?_, ?_, rfl, rfl, ?_⟩
  · rw [getSatisfactionAnalytics_percentageHigh, hhigh, htot]
    simp [jsDiv, hne, JsNum.mulFin]
  · rw [getSatisfactionAnalytics_percentageLow, hlow, htot]
    simp [jsDiv, hne, JsNum.mulFin]
  · have hdisj : ∀ t : Ticket,
        ¬((fun t => decide (4 ≤ t.satisfactionRate)) t = true ∧
          (fun t => decide (t.satisfactionRate ≤ 2)) t = true) := by
      intro t ht
      obtain ⟨h1, h2⟩ := ht
      simp only [decide_eq_true_eq] at h1 h2
      omega
    have hcnt := countP_disjoint_le (fun t => decide (4 ≤ t.satisfactionRate))
      (fun t => decide (t.satisfactionRate ≤ 2)) hdisj ts
    have hsum : ((ts.countP fun t => decide (4 ≤ t.satisfactionRate)) : ℚ)
        + ((ts.countP fun t => decide (t.satisfactionRate ≤ 2)) : ℚ)
        ≤ (ts.length : ℚ) := by exact_mod_cast hcnt
    have hdiv : (((ts.countP fun t => decide (4 ≤ t.satisfactionRate)) : ℚ)
        + ((ts.countP fun t => decide (t.satisfactionRate ≤ 2)) : ℚ))
        / (ts.length : ℚ) ≤ 1 := (div_le_one hpos).mpr hsum
    calc ((ts.countP fun t => decide (4 ≤ t.satisfactionRate)) : ℚ)
          / (ts.length : ℚ) * 100
          + ((ts.countP fun t => decide (t.satisfactionRate ≤ 2)) : ℚ)
          / (ts.length : ℚ) * 100
        = (((ts.countP fun t => decide (4 ≤ t.satisfactionRate)) : ℚ)
            + ((ts.countP fun t => decide (t.satisfactionRate ≤ 2)) : ℚ))
          / (ts.length : ℚ) * 100 := by ring
      _ ≤ 1 * 100 := mul_le_mul_of_nonneg_right hdiv (by norm_num)
      _ = 100 := by norm_num

/-- Witness for C3 on the 3-ticket sample (ratings 5, 3, 1): one high and
one low rating out of three, each bucket 100/3 percent, summing below 100
with the rating of 3 in neither. -/
theorem satisfaction_percentages_sum_le_100_witness :
    threeTickets ≠ [] ∧
    ∃ qh ql : ℚ,
      (getSatisfactionAnalytics threeTickets).percentageHigh = JsNum.fin qh ∧
      (getSatisfactionAnalytics threeTickets).percentageLow = JsNum.fin ql ∧
      qh = ((threeTickets.countP fun t => decide (4 ≤ t.satisfactionRate)) : ℚ)
          / (threeTickets.length : ℚ) * 100 ∧
      ql = ((threeTickets.countP fun t => decide (t.satisfactionRate ≤ 2)) : ℚ)
          / (threeTickets.length : ℚ) * 100 ∧
      qh + ql ≤ 100 :=
  ⟨by simp [threeTickets],
    satisfaction_percentages_sum_le_100 threeTickets (by simp [threeTickets])⟩

/-- Claim C4: on a dataset with zero tickets every analytics function
returns a definite result object (no exception); the guarded `|| 0`
fields are 0, while the unguarded divisions by the zero ticket count
yield `NaN` (`percentageUnderDay`, `percentageHigh`, `percentageLow`,
`avgTicketsPerPeriod`) and `Math.max` of no buckets yields `-Infinity`. -/
theorem empty_dataset_analytics_results :
    getResolutionTimeAnalytics [] =
      { avgResolutionTime := 0
        fastestResolution := 0
        slowestResolution := 0
        percentageUnderDay := JsNum.nan
        data := [] } ∧
    getSatisfactionAnalytics [] =
      { avgRating := 0
        percentageHigh := JsNum.nan
        percentageLow := JsNum.nan
        ratingDistribution := []
        data := [] } ∧
    getIssueDistributionAnalytics [] =
      { issueDistribution := []
        topIssue := ("None", 0)
        categories := []
        data := [] } ∧
    getTicketTrendsAnalytics [] "month" =
      { data := []
        totalTickets := 0
        avgTicketsPerPeriod := JsNum.nan
        maxTicketsInPeriod := JsNum.negInf
        insights :=
          [ "Average of NaN tickets per month"
          , "Peak volume of -Infinity tickets in a single month"
          , "Total of 0 tickets analyzed" ] } := by
  refine ⟨?_, ?_, ?_, ?_⟩ <;> rfl

/-- Claim C5: the upload rule is checked before the list rule, so any
message whose lowercased form contains "upload" together with the
list-dataset keywords "list" and "dataset", but no report-generation
keyword combination, resolves to the upload-dataset intent. -/
theorem upload_rule_beats_list_rule (m : String)
    (hup : includes (jsToLower m) "upload" = true)
    (hlist : includes (jsToLower m) "list" = true)
    (hds : includes (jsToLower m) "dataset" = true)
    (hrep : ((includes (jsToLower m) "generate" || includes (jsToLower m) "create") &&
        (includes (jsToLower m) "report" || includes (jsToLower m) "summary")) = false) :
    detectIntent m = Intent.uploadDataset := by
  unfold detectIntent
  simp [hrep, hup]

/-- Witness for C5: "upload and list datasets" contains "upload", "list"
and "dataset" and no report keywords, and routes to the upload intent. -/
theorem upload_rule_beats_list_rule_witness :
    includes (jsToLower "upload and list datasets") "upload" = true ∧
    includes (jsToLower "upload and list datasets") "list" = true ∧
    includes (jsToLower "upload and list datasets") "dataset" = true ∧
    detectIntent "upload and list datasets" = Intent.uploadDataset :=
  ⟨by decide, by decide, by decide,
    upload_rule_beats_list_rule "upload and list datasets"
      (by decide) (by decide) (by decide) (by decide)⟩

/-- Counterexample for C6 as stated: "show resolution time" matches no
earlier rule and contains the resolution-time vocabulary, yet the intent
it gets carries the agent-performance metric, not a resolution-time
metric. -/
theorem resolution_rule_metric_counterexample :
    (detectIntent "show resolution time" = Intent.showAnalytics "agent_performance" ∧
      detectIntent "show resolution time" ≠ Intent.showAnalytics "resolution_time") ∧
    (detectIntent "what is the resolution" = Intent.analyzeData "what is the resolution" ∧
      detectIntent "what is the resolution" ≠ Intent.showAnalytics "resolution_time") := by
  refine ⟨⟨?_, ?_⟩, ?_, ?_⟩ <;> decide

/-- Claim C6 (amended): for every message that matches none of the earlier
rules (report generation, upload, list datasets) and whose lowercased form
matches the resolution-time vocabulary rule ("resolution time",
"agent performance", or "time" together with "resolve"), `detectIntent`
returns a show-analytics intent carrying the `agent_performance` metric. -/
theorem resolution_rule_gives_agent_performance (m : String)
    (hrep : ((includes (jsToLower m) "generate" || includes (jsToLower m) "create") &&
        (includes (jsToLower m) "report" || includes (jsToLower m) "summary")) = false)
    (hup : includes (jsToLower m) "upload" = false)
    (hlist : (includes (jsToLower m) "list" && includes (jsToLower m) "dataset") = false)
    (hres : (includes (jsToLower m) "resolution time" ||
        includes (jsToLower m) "agent performance" ||
        (includes (jsToLower m) "time" && includes (jsToLower m) "resolve")) = true) :
    detectIntent m = Intent.showAnalytics "agent_performance" := by
  unfold detectIntent
  simp only [hrep, hup, hlist, hres, Bool.false_eq_true, if_false, if_true, reduceIte]

/-- Witness for the amended C6 at "show resolution time". -/
theorem resolution_rule_gives_agent_performance_witness :
    (includes (jsToLower "show resolution time") "resolution time" ||
        includes (jsToLower "show resolution time") "agent performance" ||
        (includes (jsToLower "show resolution time") "time" &&
          includes (jsToLower "show resolution time") "resolve")) = true ∧
    detectIntent "show resolution time" = Intent.showAnalytics "agent_performance" :=
  ⟨by decide,
    resolution_rule_gives_agent_performance "show resolution time"
      (by decide) (by decide) (by decide) (by decide)⟩

/-- If some row of the batch fails to map, the whole row mapping fails
(the JS `.map` throw aborts the entire mapping). -/
theorem mapRows_error_of_mem (datasetId : String) (rows : List Row) (r : Row)
    (hmem : r ∈ rows) (hbad : ∀ t, mapRow datasetId r ≠ Except.ok t) :
    ∃ msg, mapRows datasetId rows = Except.error msg := by
  induction rows with
  | nil => cases hmem
  | cons x xs ih =>
    rcases List.mem_cons.mp hmem with hx | hxs
    · subst hx
      cases hfx : mapRow datasetId r with
      | error e => exact ⟨e, by simp [mapRows, hfx]⟩
      | ok t => exact absurd hfx (hbad t)
    · cases hfx : mapRow datasetId x with
      | error e => exact ⟨e, by simp [mapRows, hfx]⟩
      | ok t =>
        obtain ⟨msg, hmsg⟩ := ih hxs
        exact ⟨msg, by simp [mapRows, hfx, hmsg]⟩

/-- A successful row mapping preserves the number of rows. -/
theorem mapRows_ok_length (datasetId : String) (rows : List Row) (ts : List Ticket)
    (h : mapRows datasetId rows = Except.ok ts) : ts.length = rows.length := by
  induction rows generalizing ts with
  | nil =>
    simp only [mapRows] at h
    cases h
    rfl
  | cons x xs ih =>
    simp only [mapRows] at h
    cases hfx : mapRow datasetId x with
    | error e => rw [hfx] at h; cases h
    | ok t =>
      rw [hfx] at h
      cases hrest : mapRows datasetId xs with
      | error e => rw [hrest] at h; cases h
      | ok us =>
        rw [hrest] at h
        cases h
        simp [ih us hrest]

/-- Claim C8: a row (with a ticket id) whose date fails both the explicit
D/M/YYYY parse and generic date parsing makes the upload abort before the
bulk insert: the response is an error and no `Ticket` rows are persisted,
but the `Dataset` row created before row mapping remains persisted. -/
theorem bad_date_aborts_upload (st : DbState) (newId name fileName : String)
    (rawData : List Row) (r : Row)
    (hmem : r ∈ rawData) (hid : jsTruthyStr r.ticketId = true)
    (hbad : ∃ e, parseDate r.date = Except.error e) :
    ∃ msg,
      uploadPOST st newId name fileName rawData =
        ({ datasets := st.datasets ++
            [{ id := newId
               name := if name == "" then fileName else name
               description := "Uploaded file: " ++ fileName }]
           tickets := st.tickets }, UploadResult.error msg) := by
  obtain ⟨e, he⟩ := hbad
  have hmemf : r ∈ rawData.filter fun row => jsTruthyStr row.ticketId :=
    List.mem_filter.mpr ⟨hmem, hid⟩
  have hrowbad : ∀ t, mapRow newId r ≠ Except.ok t := by
    intro t hok
    rw [mapRow, he] at hok
    cases hok
  obtain ⟨msg, hmsg⟩ := mapRows_error_of_mem newId
    (rawData.filter fun row => jsTruthyStr row.ticketId) r hmemf hrowbad
  refine ⟨msg, ?_⟩
  unfold uploadPOST
  rw [hmsg]

/-- The single bad-date row used by the C8 witness. -/
def badDateRow : Row :=
  { ticketId := some "T1"
    date := "bad-date"
    employeeId := "E1"
    agentId := "A1"
    requestCategory := "General"
    issueType := "Bug"
    severity := "High"
    priority := "P1"
    resolutionTime := 1
    satisfactionRate := 4 }

/-- Witness for C8: uploading one row with the unparsable date "bad-date"
into an empty store leaves the new dataset row persisted, zero tickets,
and an error response. -/
theorem bad_date_aborts_upload_witness :
    ∃ msg,
      uploadPOST ⟨[], []⟩ "ds1" "My Data" "data.csv" [badDateRow] =
        ({ datasets := [{ id := "ds1"
                          name := "My Data"
                          description := "Uploaded file: data.csv" }]
           tickets := [] }, UploadResult.error msg) := by
  obtain ⟨msg, h⟩ := bad_date_aborts_upload ⟨[], []⟩ "ds1" "My Data" "data.csv"
    [badDateRow] badDateRow (List.mem_singleton.mpr rfl) (by decide)
    ⟨"Invalid date format: bad-date", rfl⟩
  exact ⟨msg, by simpa using h⟩

/-- The store invariant of the `@@unique([ticketId, datasetId])`
constraint: all ticket keys are distinct. -/
def keysUnique (ts : List Ticket) : Prop :=
  (ts.map ticketKey).Nodup

/-- A bulk insert only ever appends: the prior table contents stay in
place as a prefix. -/
theorem createMany_append_suffix (rows : List Ticket) :
    ∀ ex, ∃ rest, createMany ex rows = ex ++ rest := by
  induction rows with
  | nil => intro ex; exact ⟨[], by simp [createMany]⟩
  | cons r rs ih =>
    intro ex
    have h1 : createMany ex (r :: rs) = createMany (insertSkipDup ex r) rs := rfl
    by_cases hd : ∃ u ∈ ex, ticketKey u = ticketKey r
    · have hstep : insertSkipDup ex r = ex := by simp [insertSkipDup, hd]
      rw [h1, hstep]
      exact ih ex
    · have hstep : insertSkipDup ex r = ex ++ [r] := by simp [insertSkipDup, hd]
      obtain ⟨rest, hrest⟩ := ih (ex ++ [r])
      exact ⟨r :: rest, by rw [h1, hstep, hrest, List.append_assoc]; rfl⟩

/-- A key present in the table is still present after a bulk insert. -/
theorem createMany_keys_mono (rows : List Ticket) (ex : List Ticket) (k : String × String)
    (hk : k ∈ ex.map ticketKey) : k ∈ (createMany ex rows).map ticketKey := by
  obtain ⟨rest, h⟩ := createMany_append_suffix rows ex
  rw [h, List.map_append]
  exact List.mem_append_left _ hk

/-- After a bulk insert, the key of every batch row is present in the
table (it was inserted, or an existing row already carried it). -/
theorem createMany_mem_keys (rows : List Ticket) :
    ∀ ex, ∀ t ∈ rows, ticketKey t ∈ (createMany ex rows).map ticketKey := by
  induction rows with
  | nil => intro ex t ht; cases ht
  | cons r rs ih =>
    intro ex t ht
    have h1 : createMany ex (r :: rs) = createMany (insertSkipDup ex r) rs := rfl
    rcases List.mem_cons.mp ht with hh | hh
    · subst hh
      have hk : ticketKey t ∈ (insertSkipDup ex t).map ticketKey := by
        by_cases hd : ∃ u ∈ ex, ticketKey u = ticketKey t
        · have hmem : ticketKey t ∈ ex.map ticketKey := by
            obtain ⟨u, hu, hku⟩ := hd
            exact List.mem_map.mpr ⟨u, hu, hku⟩
          simp only [insertSkipDup, if_pos hd]
          exact hmem
        · have hmem : ticketKey t ∈ (ex ++ [t]).map ticketKey :=
            List.mem_map.mpr ⟨t, by simp, rfl⟩
          simp only [insertSkipDup, if_neg hd]
          exact hmem
      rw [h1]
      exact createMany_keys_mono rs _ _ hk
    · rw [h1]
      exact ih _ t hh

/-- Duplicate skipping preserves the unique-key invariant. -/
theorem createMany_keysUnique (rows : List Ticket) :
    ∀ ex, keysUnique ex → keysUnique (createMany ex rows) := by
  induction rows with
  | nil => intro ex h; simpa [createMany] using h
  | cons r rs ih =>
    intro ex h
    have h1 : createMany ex (r :: rs) = createMany (insertSkipDup ex r) rs := rfl
    rw [h1]
    refine ih _ ?_
    by_cases hd : ∃ u ∈ ex, ticketKey u = ticketKey r
    · simpa [insertSkipDup, hd] using h
    · have hnot : ticketKey r ∉ ex.map ticketKey := by
        intro hmem
        obtain ⟨u, hu, hku⟩ := List.mem_map.mp hmem
        exact hd ⟨u, hu, hku⟩
      have hgoal : keysUnique (ex ++ [r]) := by
        unfold keysUnique at h ⊢
        rw [List.map_append]
        simp [List.nodup_append, h, hnot]
      simpa [insertSkipDup, hd] using hgoal

/-- Inserting a row whose key is already in the table is a no-op: the
resulting table is the same as if the row had not been in the batch. -/
theorem createMany_skip_noop (ex rows₁ rows₂ : List Ticket) (t : Ticket)
    (hdup : ticketKey t ∈ ex.map ticketKey) :
    createMany ex (rows₁ ++ t :: rows₂) = createMany ex (rows₁ ++ rows₂) := by
  have hk : ticketKey t ∈ (createMany ex rows₁).map ticketKey :=
    createMany_keys_mono rows₁ ex _ hdup
  have hd : ∃ u ∈ List.foldl insertSkipDup ex rows₁, ticketKey u = ticketKey t := by
    obtain ⟨u, hu, hku⟩ := List.mem_map.mp hk
    exact ⟨u, hu, hku⟩
  unfold createMany
  rw [List.foldl_append, List.foldl_append, List.foldl_cons]
  congr 1
  simp [insertSkipDup, hd]

/-- Claim C9: the ticket store keeps `(ticketId, datasetId)` unique:
bulk insertion skips a row whose key already exists, so inserting a
ticket id already present in the same dataset is a no-op that creates no
duplicate row, while the key of every other row of the upload is present
in the store afterwards. -/
theorem ticket_store_unique_key_invariant (existing rows₁ rows₂ : List Ticket) (t : Ticket)
    (h : keysUnique existing) (hdup : ticketKey t ∈ existing.map ticketKey) :
    keysUnique (createMany existing (rows₁ ++ t :: rows₂)) ∧
    createMany existing (rows₁ ++ t :: rows₂) = createMany existing (rows₁ ++ rows₂) ∧
    ∀ u ∈ rows₁ ++ rows₂,
      ticketKey u ∈ (createMany existing (rows₁ ++ t :: rows₂)).map ticketKey := by
  refine ⟨createMany_keysUnique _ _ h, createMany_skip_noop _ _ _ _ hdup, ?_⟩
  intro u hu
  rw [createMany_skip_noop _ _ _ _ hdup]
  exact createMany_mem_keys _ _ u hu

/-- The stored row of the C9 witness. -/
def storedTicket : Ticket := mkTicket "T1" (1 / 2) 5

/-- A re-uploaded row with the same `(ticketId, datasetId)` key as
`storedTicket` but different payload. -/
def dupTicket : Ticket := mkTicket "T1" 3 2

/-- A fresh row of the same upload. -/
def otherTicket : Ticket := mkTicket "T2" 1 3

/-- Witness for C9: re-inserting key ("T1", "ds1") into a store already
holding it is a no-op, uniqueness survives, and the fresh "T2" row of the
same batch is inserted. -/
theorem ticket_store_unique_key_invariant_witness :
    keysUnique (createMany [storedTicket] ([] ++ dupTicket :: [otherTicket])) ∧
    createMany [storedTicket] ([] ++ dupTicket :: [otherTicket])
      = createMany [storedTicket] ([] ++ [otherTicket]) ∧
    ticketKey otherTicket
      ∈ (createMany [storedTicket] ([] ++ dupTicket :: [otherTicket])).map ticketKey := by
  obtain ⟨h1, h2, h3⟩ := ticket_store_unique_key_invariant [storedTicket] [] [otherTicket]
    dupTicket (by unfold keysUnique; decide) (by decide)
  exact ⟨h1, h2, h3 otherTicket (by simp)⟩

/-- A bulk insert grows the table by at most the batch size. -/
theorem createMany_length_le (rows : List Ticket) :
    ∀ ex, (createMany ex rows).length ≤ ex.length + rows.length := by
  induction rows with
  | nil => intro ex; simp [createMany]
  | cons r rs ih =>
    intro ex
    have h1 : createMany ex (r :: rs) = createMany (insertSkipDup ex r) rs := rfl
    rw [h1]
    have hstep : (insertSkipDup ex r).length ≤ ex.length + 1 := by
      by_cases hd : ∃ u ∈ ex, ticketKey u = ticketKey r <;> simp [insertSkipDup, hd]
    have hrec := ih (insertSkipDup ex r)
    simp only [List.length_cons]
    omega

/-- If some batch row collides with the table or the batch repeats a key,
at least one row is skipped, so the table grows by strictly less than the
batch size. -/
theorem createMany_length_lt (rows : List Ticket) :
    ∀ ex, ((∃ t ∈ rows, ticketKey t ∈ ex.map ticketKey) ∨ ¬ (rows.map ticketKey).Nodup) →
      (createMany ex rows).length < ex.length + rows.length := by
  induction rows with
  | nil =>
    intro ex h
    rcases h with ⟨t, ht, _⟩ | h
    · cases ht
    · simp at h
  | cons r rs ih =>
    intro ex h
    have h1 : createMany ex (r :: rs) = createMany (insertSkipDup ex r) rs := rfl
    rw [h1]
    simp only [List.length_cons]
    by_cases hd : ∃ u ∈ ex, ticketKey u = ticketKey r
    · have hstep : insertSkipDup ex r = ex := by simp [insertSkipDup, hd]
      rw [hstep]
      have := createMany_length_le rs ex
      omega
    · have hstep : insertSkipDup ex r = ex ++ [r] := by simp [insertSkipDup, hd]
      have hpush : (∃ t ∈ rs, ticketKey t ∈ (ex ++ [r]).map ticketKey) ∨
          ¬ (rs.map ticketKey).Nodup := by
        rcases h with ⟨t, ht, hkt⟩ | hnd
        · rcases List.mem_cons.mp ht with hh | hh
          · subst hh
            obtain ⟨u, hu, hku⟩ := List.mem_map.mp hkt
            exact absurd ⟨u, hu, hku⟩ hd
          · refine Or.inl ⟨t, hh, ?_⟩
            rw [List.map_append]
            exact List.mem_append_left _ hkt
        · rw [List.map_cons, List.nodup_cons] at hnd
          rcases not_and_or.mp hnd with hmem | hnodup
          · have hmem' : ticketKey r ∈ rs.map ticketKey := not_not.mp hmem
            obtain ⟨t, ht, hkt⟩ := List.mem_map.mp hmem'
            refine Or.inl ⟨t, ht, ?_⟩
            rw [List.map_append]
            exact List.mem_append_right _ (by simp [hkt])
          · exact Or.inr hnodup
      rw [hstep]
      have hrec := ih (ex ++ [r]) hpush
      simp only [List.length_append, List.length_singleton] at hrec
      omega

/-- Claim C10: on a successful upload the reported `ticketCount` is the
number of parsed rows that carried a ticket id; when duplicate skipping
suppresses at least one row (a key already stored, or a repeated ticket id
within the same file), the persisted rows grow by strictly less than the
reported count. -/
theorem ticketCount_overreports_inserted (st : DbState) (newId name fileName : String)
    (rawData : List Row) (tickets : List Ticket)
    (hmap : mapRows newId (rawData.filter fun r => jsTruthyStr r.ticketId)
      = Except.ok tickets)
    (hne : tickets.length ≠ 0)
    (hdup : (∃ t ∈ tickets, ticketKey t ∈ st.tickets.map ticketKey) ∨
      ¬ (tickets.map ticketKey).Nodup) :
    (uploadPOST st newId name fileName rawData).2
        = UploadResult.ok newId (rawData.filter fun r => jsTruthyStr r.ticketId).length ∧
    (uploadPOST st newId name fileName rawData).1.tickets.length
        < st.tickets.length + (rawData.filter fun r => jsTruthyStr r.ticketId).length := by
  have hlen := mapRows_ok_length newId _ tickets hmap
  have hres : uploadPOST st newId name fileName rawData
      = ({ datasets := st.datasets ++
            [{ id := newId
               name := if name == "" then fileName else name
               description := "Uploaded file: " ++ fileName }]
           tickets := createMany st.tickets tickets },
         UploadResult.ok newId tickets.length) := by
    unfold uploadPOST
    rw [hmap]
    dsimp only
    rw [if_neg hne]
  constructor
  · rw [hres, hlen]
  · rw [hres, ← hlen]
    exact createMany_length_lt tickets st.tickets hdup

/-- First C10 witness row: ticket id "T1". -/
def goodRowA : Row :=
  { ticketId := some "T1"
    date := "5/1/2024"
    employeeId := "E1"
    agentId := "A1"
    requestCategory := "General"
    issueType := "Bug"
    severity := "High"
    priority := "P1"
    resolutionTime := 1
    satisfactionRate := 4 }

/-- Second C10 witness row: the same ticket id "T1" again. -/
def goodRowB : Row :=
  { goodRowA with resolutionTime := 2, satisfactionRate := 3 }

/-- Witness for C10: a 2-row file repeating ticket id "T1" reports
`ticketCount` 2 but persists only 1 ticket row. -/
theorem ticketCount_overreports_inserted_witness :
    (uploadPOST ⟨[], []⟩ "ds1" "My Data" "data.csv" [goodRowA, goodRowB]).2
        = UploadResult.ok "ds1" 2 ∧
    (uploadPOST ⟨[], []⟩ "ds1" "My Data" "data.csv" [goodRowA, goodRowB]).1.tickets.length
        < 2 := by
  obtain ⟨h1, h2⟩ := ticketCount_overreports_inserted ⟨[], []⟩ "ds1" "My Data" "data.csv"
    [goodRowA, goodRowB] [mkTicket "T1" 1 4, mkTicket "T1" 2 3]
    rfl (by decide) (Or.inr (by decide))
  exact ⟨h1.trans rfl, h2⟩
